import Mathlib

/-!
Shallow embedding of `src/pages/SignDocument.tsx` (dmdsign-v3): field model,
form validation, PDF overlay/flattening logic, field navigation, and the
component's state transitions (save handler and realtime insert subscription).
-/

namespace SignDoc

/-- Field kinds: `type: 'signature' | 'text' | 'date'` in `FormField`. -/
inductive FieldType where
  | signature
  | text
  | date
  deriving DecidableEq, Repr

/-- Embeds `position: { x: number; y: number; pageNumber: number }`. -/
structure Position where
  x : Rat
  y : Rat
  pageNumber : Int
  deriving DecidableEq, Repr

/-- Embeds the `FormField` interface. -/
structure FormField where
  type : FieldType
  position : Position
  label : String
  required : Bool
  id : String
  deriving DecidableEq, Repr

/-- Embeds the `Template` interface (`file_path` points at stored PDF bytes). -/
structure Template where
  id : String
  name : String
  fields : List FormField
  file_path : String
  deriving DecidableEq, Repr

/-- Embeds `FormValues` (a JS object keyed by label).  An association list
looked up front-to-back; newer bindings are consed at the front so they
shadow older ones, like JS property assignment/spread. -/
abbrev FormValues := List (String × String)

/-- JS property read `formValues[label]`: `none` models `undefined`. -/
def lookupVal (vs : FormValues) (label : String) : Option String :=
  (List.find? (fun p => p.1 == label) vs).map (fun p => p.2)

/-- Models JavaScript `String.prototype.trim`: strips whitespace from both
ends of the string.  (Defined directly on the character list so that it is
kernel-reducible.) -/
def jsTrim (s : String) : String :=
  String.mk (((s.toList.dropWhile Char.isWhitespace).reverse.dropWhile
    Char.isWhitespace).reverse)

/-- The filter body of `validateForm`:
`!value || value.trim() === ''` (`undefined` and `''` are falsy in JS). -/
def isMissingOrBlank (v : Option String) : Bool :=
  match v with
  | none => true
  | some s => s == "" || jsTrim s == ""

/-- Result of validation: `ok` is the boolean `validateForm` returns,
`missingLabels` the labels it reports in the error message. -/
structure ValidationResult where
  ok : Bool
  missingLabels : List String
  deriving DecidableEq, Repr

/-- Embeds `validateForm` (lines 240-254): filters fields where
`field.required && (!value || value.trim() === '')`; validation succeeds
iff that list is empty, otherwise the missing labels are reported. -/
def validateForm (fields : List FormField) (vals : FormValues) : ValidationResult :=
  let missingFields := fields.filter
    (fun f => f.required && isMissingOrBlank (lookupVal vals f.label))
  { ok := missingFields.isEmpty, missingLabels := missingFields.map (fun f => f.label) }

/-- The error message `validateForm` sets when fields are missing. -/
def validationMessage (r : ValidationResult) : String :=
  "Please complete all required fields: " ++ String.intercalate ", " r.missingLabels

/-- Spec-side predicate: the value map has, for this label, a value that is
non-empty after trimming whitespace. -/
def hasNonBlankValue (vals : FormValues) (label : String) : Prop :=
  ∃ s, lookupVal vals label = some s ∧ jsTrim s ≠ ""

instance (vals : FormValues) (label : String) : Decidable (hasNonBlankValue vals label) := by
  unfold hasNonBlankValue
  match h : lookupVal vals label with
  | none => exact .isFalse (by rintro ⟨s, hs, _⟩; simp [h] at hs)
  | some s =>
    match hs : decide (jsTrim s ≠ "") with
    | true => exact .isTrue ⟨s, rfl, of_decide_eq_true hs⟩
    | false =>
      exact .isFalse (by
        rintro ⟨t, ht, htr⟩
        cases ht
        exact absurd (decide_eq_true htr) (by simp [hs]))

/-- An embedded PNG image as pdf-lib reports it: native width and height. -/
structure PngImage where
  width : Rat
  height : Rat
  deriving DecidableEq, Repr

/-- Result of pdf-lib `image.scale(factor)`. -/
structure ScaledDims where
  width : Rat
  height : Rat
  deriving DecidableEq, Repr

/-- Embeds pdf-lib `image.scale(factor)`: multiplies both dimensions. -/
def PngImage.scale (img : PngImage) (factor : Rat) : ScaledDims :=
  { width := img.width * factor, height := img.height * factor }

/-- A PDF page as the flattening loop uses it: only `getHeight()` is read. -/
structure PdfPage where
  height : Rat
  deriving DecidableEq, Repr

/-- Embeds `pages[field.position.pageNumber - 1]` with JS array semantics:
an index outside the array (including the negative index produced by
`pageNumber ≤ 0`) yields `undefined`, modelled as `none`. -/
def getPage (pages : List PdfPage) (pageNumber : Int) : Option PdfPage :=
  if 1 ≤ pageNumber then pages.get? (pageNumber - 1).toNat else none

/-- A drawing call issued onto a page: `page.drawText(...)` or
`page.drawImage(...)` with the arguments the source passes. -/
inductive DrawOp where
  | drawText (value : String) (x : Rat) (y : Rat) (size : Rat) (fontName : String)
      (color : Rat × Rat × Rat)
  | drawImage (img : PngImage) (x : Rat) (y : Rat) (width : Rat) (height : Rat)
  deriving DecidableEq, Repr

/-- The x argument of a draw call. -/
def DrawOp.xCoord : DrawOp → Rat
  | .drawText _ x _ _ _ _ => x
  | .drawImage _ x _ _ _ => x

/-- The y argument of a draw call. -/
def DrawOp.yCoord : DrawOp → Rat
  | .drawText _ _ y _ _ _ => y
  | .drawImage _ _ y _ _ => y

/-- Height of the drawn element: 0 for a text draw (baseline placement),
the drawn image height for an image draw. -/
def DrawOp.elementHeight : DrawOp → Rat
  | .drawText _ _ _ _ _ _ => 0
  | .drawImage _ _ _ _ h => h

/-- One iteration of the `for (const field of doc.template.fields)` loop in
`downloadSignedPdf` (lines 63-94), as the list of draw calls it issues,
tagged with the field's page number.  `decodePng` abstracts the
`split/atob/embedPng` pipeline; the `try/catch` around it means a decode
failure issues no draw call for this field. -/
def fieldOps (decodePng : String → Option PngImage) (pages : List PdfPage)
    (form_values : FormValues) (field : FormField) : List (Int × DrawOp) :=
  match getPage pages field.position.pageNumber with
  | none => []
  | some page =>
    let value := (lookupVal form_values field.label).getD ""
    if field.type = FieldType.signature ∧ value ≠ "" then
      match decodePng value with
      | some img =>
        let dims := img.scale (1/2)
        [(field.position.pageNumber,
          DrawOp.drawImage img field.position.x
            (page.height - field.position.y - dims.height) dims.width dims.height)]
      | none => []
    else
      [(field.position.pageNumber,
        DrawOp.drawText value field.position.x (page.height - field.position.y)
          12 "Helvetica" (0, 0, 0))]

/-- The whole flattening loop of `downloadSignedPdf`: the overlay content
added to the downloaded document, in field order. -/
def flatten (decodePng : String → Option PngImage) (pages : List PdfPage)
    (fields : List FormField) (form_values : FormValues) : List (Int × DrawOp) :=
  (fields.map (fieldOps decodePng pages form_values)).flatten

/-- A visible mark contributed to page content by a draw call. -/
inductive PageMark where
  | glyph (c : Char) (idx : Nat) (x : Rat) (y : Rat) (size : Rat) (fontName : String)
  | imageMark (img : PngImage) (x : Rat) (y : Rat) (width : Rat) (height : Rat)
  deriving DecidableEq, Repr

/-- Visible content of one draw call: a text draw contributes one glyph per
character of its string (so the empty string contributes nothing); an image
draw contributes the blitted image. -/
def renderOp : DrawOp → List PageMark
  | .drawText s x y size font _ =>
      (s.toList.enum).map (fun p => PageMark.glyph p.2 p.1 x y size font)
  | .drawImage img x y w h => [PageMark.imageMark img x y w h]

/-- Visible content contributed by a list of (page, draw call) pairs. -/
def renderOps (ops : List (Int × DrawOp)) : List PageMark :=
  (ops.map (fun p => renderOp p.2)).flatten

/-- Embeds the `SignedDocument` interface: the row `getSignedDocument`
selects (id, template_id, form_values, created_at, joined template). -/
structure SignedDocumentRec where
  id : String
  template_id : String
  form_values : FormValues
  created_at : String
  template : Template
  deriving DecidableEq, Repr

/-- The component state of `SignDocument` (the `useState` hooks), restricted
to the pieces the handlers read or write. -/
structure SessionState where
  template : Option Template
  templateId : Option String
  pdfUrl : Option String
  formValues : FormValues
  showSignaturePad : Bool
  activeField : Option String
  isSaving : Bool
  error : Option String
  success : Bool
  currentPage : Int
  showQRCode : Bool
  currentFieldIndex : Nat
  signedDocument : Option SignedDocumentRec
  isMobile : Bool
  mobileSignatureComplete : Bool
  deriving DecidableEq, Repr

/-- JS property write / single-key spread `{ ...prev, [label]: v }`. -/
def setValue (vs : FormValues) (label v : String) : FormValues :=
  (label, v) :: vs

/-- JS object spread `{ ...prev, ...updated }`: keys of `updated` shadow
keys of `prev` (the front of the association list wins on lookup). -/
def mergeValues (prev updated : FormValues) : FormValues :=
  updated ++ prev

/-- Embeds `handleResize` (lines 162-164): `setIsMobile(window.innerWidth <= 768)`. -/
def handleResize (innerWidth : Rat) (s : SessionState) : SessionState :=
  { s with isMobile := decide (innerWidth ≤ 768) }

/-- Embeds the success path of `loadTemplate` (lines 183-206). -/
def loadTemplateOk (tpl : Template) (url : String) (s : SessionState) : SessionState :=
  { s with template := some tpl, pdfUrl := some url }

/-- Embeds the catch branch of `loadTemplate`. -/
def loadTemplateFailed (s : SessionState) : SessionState :=
  { s with error := some "Failed to load document. Please try again." }

/-- Embeds `handleFieldClick` (lines 208-221): only signature fields react;
on mobile the signature pad opens, on desktop it stays closed. -/
def handleFieldClick (f : FormField) (s : SessionState) : SessionState :=
  if f.type = FieldType.signature then
    { s with activeField := some f.label,
             showSignaturePad := s.isMobile,
             showQRCode := false,
             currentPage := f.position.pageNumber }
  else s

/-- Embeds `handleSignatureSave` (lines 223-231); `activeField!` with a null
active field becomes the JS computed key `"null"`. -/
def handleSignatureSave (data : String) (s : SessionState) : SessionState :=
  { s with formValues := setValue s.formValues (s.activeField.getD "null") data,
           showSignaturePad := false,
           activeField := none,
           showQRCode := false }

/-- Embeds `handleInputChange` (lines 233-238). -/
def handleInputChange (f : FormField) (v : String) (s : SessionState) : SessionState :=
  { s with formValues := setValue s.formValues f.label v }

/-- Embeds `handleCancelSignature` (lines 296-300). -/
def handleCancelSignature (s : SessionState) : SessionState :=
  { s with showSignaturePad := false, showQRCode := false, activeField := none }

/-- A call made against the relational store. -/
inductive DbEffect where
  | insertSignedDocument (template_id : String) (form_values : FormValues)
  deriving DecidableEq, Repr

/-- Embeds `handleSave` (lines 256-294).  `insertResult` is the row id the
insert returns (`none` models both a `saveError` and an empty `data`, which
the code treats alike through its catch); `fetchDoc` models
`getSignedDocument` (throwing modelled as `none`).  Returns the new state
and the list of persistence calls issued. -/
def handleSave (fetchDoc : String → Option SignedDocumentRec)
    (insertResult : Option String) (s : SessionState) : SessionState × List DbEffect :=
  match s.template, s.templateId with
  | some tpl, some tid =>
    let vr := validateForm tpl.fields s.formValues
    if vr.ok then
      let s1 := { s with isSaving := true, error := none }
      let s2 :=
        match insertResult with
        | some docId =>
          match fetchDoc docId with
          | some doc =>
            let s3 := { s1 with signedDocument := some doc }
            if s3.isMobile then { s3 with mobileSignatureComplete := true } else s3
          | none => { s1 with error := some "Failed to save the document. Please try again." }
        | none => { s1 with error := some "Failed to save the document. Please try again." }
      ({ s2 with isSaving := false }, [DbEffect.insertSignedDocument tid s1.formValues])
    else
      ({ s with error := some (validationMessage vr) }, [])
  | _, _ => (s, [])

/-- Embeds `handleNextField` (lines 302-313): advance the index by one when
not already at the last field, then scroll to the next field's page when
that page number is truthy. -/
def handleNextField (s : SessionState) : SessionState :=
  match s.template with
  | none => s
  | some tpl =>
    if s.currentFieldIndex < tpl.fields.length - 1 then
      let s1 := { s with currentFieldIndex := s.currentFieldIndex + 1 }
      match tpl.fields.get? (s.currentFieldIndex + 1) with
      | some f =>
        if f.position.pageNumber ≠ 0 then { s1 with currentPage := f.position.pageNumber }
        else s1
      | none => s1
    else s

/-- The render guard at line 507: the Next Field button exists only while
`currentFieldIndex < template.fields.length - 1`. -/
def nextFieldButtonVisible (s : SessionState) : Bool :=
  match s.template with
  | none => false
  | some tpl => s.currentFieldIndex < tpl.fields.length - 1

/-- The `disabled={!formValues[template.fields[currentFieldIndex].label]}`
guard at line 510: the current field has a truthy (non-empty) value. -/
def currentFieldHasValue (s : SessionState) : Bool :=
  match s.template with
  | none => false
  | some tpl =>
    match tpl.fields.get? s.currentFieldIndex with
    | some f =>
      match lookupVal s.formValues f.label with
      | some v => !(v == "")
      | none => false
    | none => false

/-- A click on the Next Field button as the UI allows it: `handleNextField`
runs only while the button is rendered and not disabled. -/
def advanceStep (s : SessionState) : SessionState :=
  if nextFieldButtonVisible s && currentFieldHasValue s then handleNextField s else s

/-- The `payload.new` row carried by a `postgres_changes` INSERT event. -/
structure InsertPayload where
  id : String
  template_id : String
  deriving DecidableEq, Repr

/-- Embeds the realtime subscription handler (lines 316-338): on an INSERT
whose `template_id` equals the session's `templateId`, fetch the full row,
store it, merge its `form_values` over the local `formValues`, and set
`success`; every other event leaves the state unchanged. -/
def handleInsertEvent (fetchDoc : String → Option SignedDocumentRec)
    (p : InsertPayload) (s : SessionState) : SessionState :=
  if s.templateId = some p.template_id then
    match fetchDoc p.id with
    | some doc =>
      { s with signedDocument := some doc,
               formValues := mergeValues s.formValues doc.form_values,
               success := true }
    | none => s
  else s

/-- The state-mutating events of the component, with the responses of the
external stores embedded where a handler consumes them. -/
inductive Action where
  | resize (innerWidth : Rat)
  | loadOk (tpl : Template) (url : String)
  | loadFailed
  | fieldClick (f : FormField)
  | signatureSave (data : String)
  | inputChange (f : FormField) (v : String)
  | cancelSignature
  | nextFieldClick
  | save (insertResult : Option String)
  | insertEvent (p : InsertPayload)
  deriving DecidableEq, Repr

/-- Dispatch of one event to its handler. -/
def step (fetchDoc : String → Option SignedDocumentRec) :
    Action → SessionState → SessionState
  | .resize w, s => handleResize w s
  | .loadOk tpl url, s => loadTemplateOk tpl url s
  | .loadFailed, s => loadTemplateFailed s
  | .fieldClick f, s => handleFieldClick f s
  | .signatureSave d, s => handleSignatureSave d s
  | .inputChange f v, s => handleInputChange f v s
  | .cancelSignature, s => handleCancelSignature s
  | .nextFieldClick, s => advanceStep s
  | .save r, s => (handleSave fetchDoc r s).1
  | .insertEvent p, s => handleInsertEvent fetchDoc p s

/-- A concrete text field, used to instantiate theorems on closed inputs. -/
def fld0 : FormField := ⟨FieldType.text, ⟨50, 100, 1⟩, "Name", true, "f1"⟩

/-- A concrete signature field. -/
def fld1 : FormField := ⟨FieldType.signature, ⟨50, 300, 1⟩, "Sig", true, "f2"⟩

/-- A concrete template with the two fields above. -/
def tpl0 : Template := ⟨"t1", "Contract", [fld0, fld1], "contract.pdf"⟩

/-- A concrete persisted Signed Document row for `tpl0`. -/
def doc0 : SignedDocumentRec :=
  ⟨"d1", "t1", [("Name", "Remote"), ("Sig", "imgdata")], "2024-01-01", tpl0⟩

/-- A concrete desktop session on `tpl0` with both fields filled. -/
def st0 : SessionState :=
  { template := some tpl0, templateId := some "t1", pdfUrl := some "u",
    formValues := [("Name", "Jane"), ("Sig", "imgdata")],
    showSignaturePad := false, activeField := none, isSaving := false,
    error := none, success := false, currentPage := 1, showQRCode := false,
    currentFieldIndex := 0, signedDocument := none, isMobile := false,
    mobileSignatureComplete := false }

/-- The same session with a blank-after-trim required value and a missing
required signature, so validation fails. -/
def stInvalid : SessionState := { st0 with formValues := [("Name", "   ")] }

end SignDoc

namespace SignDoc

theorem isMissingOrBlank_iff (v : Option String) :
    isMissingOrBlank v = true ↔ ¬ ∃ s, v = some s ∧ jsTrim s ≠ "" := by
  cases v with
  | none => simp [isMissingOrBlank]
  | some s =>
    simp only [isMissingOrBlank, Bool.or_eq_true, beq_iff_eq]
    constructor
    · rintro (rfl | h)
      · rintro ⟨t, ht, htr⟩; cases ht; exact htr (by decide)
      · rintro ⟨t, ht, htr⟩; cases ht; exact htr h
    · intro h
      right
      by_contra htr
      exact h ⟨s, rfl, htr⟩

/-- C1: `validateForm` returns `ok = true` exactly when every required field
has a value that is non-empty after trimming whitespace, and the reported
missing labels are exactly the labels of the required fields that are
missing or blank after trimming. -/
theorem validateForm_ok_and_missing (fields : List FormField) (vals : FormValues) :
    ((validateForm fields vals).ok = true ↔
      ∀ f ∈ fields, f.required = true → hasNonBlankValue vals f.label) ∧
    (∀ l, l ∈ (validateForm fields vals).missingLabels ↔
      ∃ f ∈ fields, f.required = true ∧ ¬ hasNonBlankValue vals f.label ∧ f.label = l) := by
  have key : ∀ f : FormField,
      (f.required && isMissingOrBlank (lookupVal vals f.label)) = true ↔
      (f.required = true ∧ ¬ hasNonBlankValue vals f.label) := by
    intro f
    rw [Bool.and_eq_true, isMissingOrBlank_iff]
    exact Iff.rfl
  have hok : (validateForm fields vals).ok
      = (fields.filter (fun f => f.required && isMissingOrBlank (lookupVal vals f.label))).isEmpty := rfl
  have hmiss : (validateForm fields vals).missingLabels
      = (fields.filter (fun f => f.required && isMissingOrBlank (lookupVal vals f.label))).map
          (fun f => f.label) := rfl
  constructor
  · rw [hok, List.isEmpty_iff, List.filter_eq_nil_iff]
    constructor
    · intro h f hf hreq
      by_contra hnb
      exact h f hf ((key f).2 ⟨hreq, hnb⟩)
    · intro h f hf hp
      obtain ⟨hreq, hnb⟩ := (key f).1 hp
      exact hnb (h f hf hreq)
  · intro l
    rw [hmiss]
    simp only [List.mem_map, List.mem_filter]
    constructor
    · rintro ⟨f, ⟨hf, hp⟩, hl⟩
      obtain ⟨hreq, hnb⟩ := (key f).1 hp
      exact ⟨f, hf, hreq, hnb, hl⟩
    · rintro ⟨f, hf, hreq, hnb, hl⟩
      exact ⟨f, ⟨hf, (key f).2 ⟨hreq, hnb⟩⟩, hl⟩

/-- C2: every draw call issued while flattening a field onto a page of
height H is placed at x = field.x unchanged and y = H - field.y -
elementHeight, where elementHeight is 0 for text draws and, for an image
draw, the image height scaled by the fixed factor 1/2 of native
resolution (the width likewise). -/
theorem fieldOps_coordinate_conversion
    (decodePng : String → Option PngImage) (pages : List PdfPage)
    (form_values : FormValues) (field : FormField) (page : PdfPage)
    (n : Int) (op : DrawOp)
    (hpage : getPage pages field.position.pageNumber = some page)
    (hmem : (n, op) ∈ fieldOps decodePng pages form_values field) :
    op.xCoord = field.position.x ∧
    op.yCoord = page.height - field.position.y - op.elementHeight ∧
    ∀ img x y w h, op = DrawOp.drawImage img x y w h →
      w = img.width * (1/2) ∧ h = img.height * (1/2) := by
  simp only [fieldOps, hpage] at hmem
  by_cases hc : field.type = FieldType.signature ∧
      ((lookupVal form_values field.label).getD "") ≠ ""
  · rw [if_pos hc] at hmem
    cases hdec : decodePng ((lookupVal form_values field.label).getD "") with
    | none => rw [hdec] at hmem; simp at hmem
    | some img =>
      rw [hdec] at hmem
      simp only [List.mem_singleton, Prod.mk.injEq] at hmem
      obtain ⟨-, rfl⟩ := hmem
      refine ⟨rfl, ?_, ?_⟩
      · simp [DrawOp.yCoord, DrawOp.elementHeight, PngImage.scale]
      · intro img' x y w h heq
        cases heq
        simp [PngImage.scale]
  · rw [if_neg hc] at hmem
    simp only [List.mem_singleton, Prod.mk.injEq] at hmem
    obtain ⟨-, rfl⟩ := hmem
    refine ⟨rfl, ?_, ?_⟩
    · simp [DrawOp.yCoord, DrawOp.elementHeight]
    · intro img' x y w h heq
      simp at heq

theorem fieldOps_coordinate_conversion_witness :
    (DrawOp.drawImage ⟨100, 40⟩ 10 (200 - 20 - 40 * (1/2)) (100 * (1/2))
        (40 * (1/2))).xCoord =
      ({ type := FieldType.signature, position := ⟨10, 20, 1⟩, label := "Sig",
         required := true, id := "f1" } : FormField).position.x ∧
    (DrawOp.drawImage ⟨100, 40⟩ 10 (200 - 20 - 40 * (1/2)) (100 * (1/2))
        (40 * (1/2))).yCoord =
      (⟨200⟩ : PdfPage).height -
        ({ type := FieldType.signature, position := ⟨10, 20, 1⟩, label := "Sig",
           required := true, id := "f1" } : FormField).position.y -
        (DrawOp.drawImage ⟨100, 40⟩ 10 (200 - 20 - 40 * (1/2)) (100 * (1/2))
          (40 * (1/2))).elementHeight :=
  have h := fieldOps_coordinate_conversion (fun _ => some ⟨100, 40⟩) [⟨200⟩]
    [("Sig", "payload")]
    { type := FieldType.signature, position := ⟨10, 20, 1⟩, label := "Sig",
      required := true, id := "f1" } ⟨200⟩ 1
    (DrawOp.drawImage ⟨100, 40⟩ 10 (200 - 20 - 40 * (1/2)) (100 * (1/2)) (40 * (1/2)))
    rfl (List.Mem.head _)
  ⟨h.1, h.2.1⟩

/-- C4: a signature field whose payload fails to decode is confined to that
field: flattening is total (no exception in the model), and its output
equals the output of flattening with that field omitted, so every other
field's overlays are still present and unchanged. -/
theorem flatten_decode_failure
    (decodePng : String → Option PngImage) (pages : List PdfPage)
    (form_values : FormValues) (pre post : List FormField) (f : FormField)
    (htype : f.type = FieldType.signature)
    (hval : (lookupVal form_values f.label).getD "" ≠ "")
    (hdec : decodePng ((lookupVal form_values f.label).getD "") = none) :
    flatten decodePng pages (pre ++ f :: post) form_values =
      flatten decodePng pages (pre ++ post) form_values := by
  have hf : fieldOps decodePng pages form_values f = [] := by
    cases hpage : getPage pages f.position.pageNumber with
    | none => simp only [fieldOps, hpage]
    | some page =>
      simp only [fieldOps, hpage]
      rw [if_pos ⟨htype, hval⟩, hdec]
  simp [flatten, hf]

theorem flatten_decode_failure_witness :
    flatten (fun _ => none) [⟨100⟩]
      [⟨FieldType.signature, ⟨5, 5, 1⟩, "Sig", true, "f1"⟩,
       ⟨FieldType.text, ⟨7, 9, 1⟩, "Name", true, "f2"⟩]
      [("Sig", "bad"), ("Name", "Jane")] =
    flatten (fun _ => none) [⟨100⟩]
      [⟨FieldType.text, ⟨7, 9, 1⟩, "Name", true, "f2"⟩]
      [("Sig", "bad"), ("Name", "Jane")] :=
  flatten_decode_failure (fun _ => none) [⟨100⟩] [("Sig", "bad"), ("Name", "Jane")]
    [] [⟨FieldType.text, ⟨7, 9, 1⟩, "Name", true, "f2"⟩]
    ⟨FieldType.signature, ⟨5, 5, 1⟩, "Sig", true, "f1"⟩
    rfl (by decide) rfl

/-- C5: a field whose pageNumber exceeds the document's page count (or is
below 1, hence unresolvable to a page) is skipped without throwing: the
flattening output equals the output of flattening with that field omitted
from the template. -/
theorem flatten_page_out_of_range
    (decodePng : String → Option PngImage) (pages : List PdfPage)
    (form_values : FormValues) (pre post : List FormField) (f : FormField)
    (hpage : (pages.length : Int) < f.position.pageNumber ∨ f.position.pageNumber < 1) :
    flatten decodePng pages (pre ++ f :: post) form_values =
      flatten decodePng pages (pre ++ post) form_values := by
  have hnone : getPage pages f.position.pageNumber = none := by
    unfold getPage
    rcases hpage with h | h
    · rw [if_pos (by omega)]
      exact List.get?_eq_none.2 (by omega)
    · rw [if_neg (by omega)]
  have hf : fieldOps decodePng pages form_values f = [] := by
    simp only [fieldOps, hnone]
  simp [flatten, hf]

theorem flatten_page_out_of_range_witness :
    flatten (fun _ => none) [⟨100⟩]
      [⟨FieldType.text, ⟨1, 2, 5⟩, "Name", true, "f1"⟩,
       ⟨FieldType.date, ⟨3, 4, 1⟩, "Date", false, "f2"⟩]
      [("Name", "Jane")] =
    flatten (fun _ => none) [⟨100⟩]
      [⟨FieldType.date, ⟨3, 4, 1⟩, "Date", false, "f2"⟩]
      [("Name", "Jane")] :=
  flatten_page_out_of_range (fun _ => none) [⟨100⟩] [("Name", "Jane")]
    [] [⟨FieldType.date, ⟨3, 4, 1⟩, "Date", false, "f2"⟩]
    ⟨FieldType.text, ⟨1, 2, 5⟩, "Name", true, "f1"⟩
    (Or.inl (by decide))

/-- C9: a text or date field is drawn as exactly one text draw of the
literal string value at the converted position, with fixed size 12 and the
fixed Helvetica font; when the value is empty (missing or the empty
string) that draw contributes no visible mark to the page. -/
theorem fieldOps_text_field
    (decodePng : String → Option PngImage) (pages : List PdfPage)
    (form_values : FormValues) (field : FormField) (page : PdfPage)
    (htype : field.type = FieldType.text ∨ field.type = FieldType.date)
    (hpage : getPage pages field.position.pageNumber = some page) :
    fieldOps decodePng pages form_values field =
      [(field.position.pageNumber,
        DrawOp.drawText ((lookupVal form_values field.label).getD "")
          field.position.x (page.height - field.position.y) 12 "Helvetica" (0, 0, 0))] ∧
    ((lookupVal form_values field.label).getD "" = "" →
      renderOps (fieldOps decodePng pages form_values field) = []) := by
  have hnotsig : ¬ (field.type = FieldType.signature ∧
      ((lookupVal form_values field.label).getD "") ≠ "") := by
    rintro ⟨hsig, -⟩
    rcases htype with h | h <;> rw [h] at hsig <;> cases hsig
  have hops : fieldOps decodePng pages form_values field =
      [(field.position.pageNumber,
        DrawOp.drawText ((lookupVal form_values field.label).getD "")
          field.position.x (page.height - field.position.y) 12 "Helvetica" (0, 0, 0))] := by
    simp only [fieldOps, hpage]
    rw [if_neg hnotsig]
  refine ⟨hops, ?_⟩
  intro hempty
  rw [hops, hempty]
  rfl

theorem fieldOps_text_field_witness :
    fieldOps (fun _ => none) [⟨100⟩] []
        ⟨FieldType.text, ⟨50, 30, 1⟩, "Name", true, "f1"⟩ =
      [(1, DrawOp.drawText "" 50 (100 - 30) 12 "Helvetica" (0, 0, 0))] ∧
    renderOps (fieldOps (fun _ => none) [⟨100⟩] []
        ⟨FieldType.text, ⟨50, 30, 1⟩, "Name", true, "f1"⟩) = [] :=
  have h := fieldOps_text_field (fun _ => none) [⟨100⟩] []
    ⟨FieldType.text, ⟨50, 30, 1⟩, "Name", true, "f1"⟩ ⟨100⟩
    (Or.inl rfl) rfl
  ⟨h.1, h.2 rfl⟩

/-- C3: when validation fails on a submission attempt, `handleSave` issues
no persistence call (no Signed Document insert, so the persisted state is
unchanged) and the locally stored signed document is untouched. -/
theorem handleSave_no_insert_on_invalid
    (fetchDoc : String → Option SignedDocumentRec) (insertResult : Option String)
    (s : SessionState) (tpl : Template)
    (htpl : s.template = some tpl)
    (hinvalid : (validateForm tpl.fields s.formValues).ok = false) :
    (handleSave fetchDoc insertResult s).2 = [] ∧
    (handleSave fetchDoc insertResult s).1.signedDocument = s.signedDocument := by
  unfold handleSave
  rw [htpl]
  cases htid : s.templateId with
  | none => exact ⟨rfl, rfl⟩
  | some tid =>
    dsimp only
    rw [if_neg (by simp [hinvalid])]
    exact ⟨rfl, rfl⟩

theorem handleSave_no_insert_on_invalid_witness :
    (handleSave (fun _ => some doc0) (some "d1") stInvalid).2 = [] ∧
    (handleSave (fun _ => some doc0) (some "d1") stInvalid).1.signedDocument =
      stInvalid.signedDocument :=
  handleSave_no_insert_on_invalid (fun _ => some doc0) (some "d1") stInvalid tpl0
    rfl (by decide)

/-- C6: a permitted Next Field click advances the index to exactly the next
field in template order; the click path is a no-op when the index is
already at the last field, and is blocked (state unchanged) while the
current field has no value. -/
theorem advanceStep_spec (s : SessionState) (tpl : Template)
    (htpl : s.template = some tpl) :
    (s.currentFieldIndex < tpl.fields.length - 1 → currentFieldHasValue s = true →
      (advanceStep s).currentFieldIndex = s.currentFieldIndex + 1) ∧
    (¬ s.currentFieldIndex < tpl.fields.length - 1 → advanceStep s = s) ∧
    (currentFieldHasValue s = false → advanceStep s = s) := by
  refine ⟨?_, ?_, ?_⟩
  · intro hlt hval
    have hv : nextFieldButtonVisible s = true := by
      simp [nextFieldButtonVisible, htpl, hlt]
    unfold advanceStep
    rw [hv, hval]
    show (handleNextField s).currentFieldIndex = _
    unfold handleNextField
    rw [htpl]
    dsimp only
    rw [if_pos hlt]
    cases hget : tpl.fields.get? (s.currentFieldIndex + 1) with
    | none => rfl
    | some f =>
      dsimp only
      split <;> rfl
  · intro hge
    have hv : nextFieldButtonVisible s = false := by
      simp [nextFieldButtonVisible, htpl, hge]
    unfold advanceStep
    rw [hv]
    rfl
  · intro hval
    unfold advanceStep
    rw [hval]
    simp

theorem advanceStep_spec_witness :
    (advanceStep st0).currentFieldIndex = st0.currentFieldIndex + 1 :=
  (advanceStep_spec st0 tpl0 rfl).1 (by decide) (by decide)

/-- C7: the subscription handler ignores creation events for other
templates; on an event whose `template_id` matches the session's
`templateId` it fetches the full record by the event's row id, stores it,
merges its `form_values` over the local `formValues`, and sets the success
state. -/
theorem handleInsertEvent_spec
    (fetchDoc : String → Option SignedDocumentRec) (p : InsertPayload) (s : SessionState) :
    (s.templateId ≠ some p.template_id → handleInsertEvent fetchDoc p s = s) ∧
    (s.templateId = some p.template_id →
      ∀ doc, fetchDoc p.id = some doc →
        handleInsertEvent fetchDoc p s =
          { s with signedDocument := some doc,
                   formValues := mergeValues s.formValues doc.form_values,
                   success := true }) := by
  constructor
  · intro hne
    unfold handleInsertEvent
    rw [if_neg hne]
  · intro heq doc hdoc
    unfold handleInsertEvent
    rw [if_pos heq, hdoc]

theorem handleInsertEvent_spec_witness :
    handleInsertEvent (fun _ => some doc0) ⟨"d1", "t1"⟩ st0 =
      { st0 with signedDocument := some doc0,
                 formValues := mergeValues st0.formValues doc0.form_values,
                 success := true } :=
  (handleInsertEvent_spec (fun _ => some doc0) ⟨"d1", "t1"⟩ st0).2 rfl doc0 rfl

/-- C8: the subscription handler applies no first-wins guard or
deduplication: even in a state whose session is already successfully
submitted, a further matching creation event again overwrites the stored
document, merges the new record's `form_values` over the session state and
sets the success state. -/
theorem handleInsertEvent_accepts_repeats
    (fetchDoc : String → Option SignedDocumentRec) (p : InsertPayload)
    (s : SessionState) (doc : SignedDocumentRec)
    (hmatch : s.templateId = some p.template_id)
    (_hsucc : s.success = true)
    (hfetch : fetchDoc p.id = some doc) :
    handleInsertEvent fetchDoc p s =
      { s with signedDocument := some doc,
               formValues := mergeValues s.formValues doc.form_values,
               success := true } := by
  unfold handleInsertEvent
  rw [if_pos hmatch, hfetch]

theorem handleInsertEvent_accepts_repeats_witness :
    handleInsertEvent (fun _ => some doc0) ⟨"d2", "t1"⟩ { st0 with success := true } =
      { { st0 with success := true } with
          signedDocument := some doc0,
          formValues := mergeValues { st0 with success := true }.formValues doc0.form_values,
          success := true } :=
  handleInsertEvent_accepts_repeats (fun _ => some doc0) ⟨"d2", "t1"⟩
    { st0 with success := true } doc0 rfl rfl rfl

theorem handleSave_success_eq (fetchDoc : String → Option SignedDocumentRec)
    (r : Option String) (s : SessionState) :
    (handleSave fetchDoc r s).1.success = s.success := by
  unfold handleSave
  cases htpl : s.template with
  | none => rfl
  | some tpl =>
    cases htid : s.templateId with
    | none => rfl
    | some tid =>
      dsimp only
      by_cases hok : (validateForm tpl.fields s.formValues).ok = true
      · rw [if_pos hok]
        cases r with
        | none => rfl
        | some docId =>
          dsimp only
          cases hfd : fetchDoc docId with
          | none => rfl
          | some doc =>
            dsimp only
            split <;> rfl
      · rw [if_neg hok]

theorem handleNextField_success_eq (s : SessionState) :
    (handleNextField s).success = s.success := by
  unfold handleNextField
  cases s.template with
  | none => rfl
  | some tpl =>
    dsimp only
    split
    · split <;> (try split) <;> rfl
    · rfl

theorem advanceStep_success_eq (s : SessionState) :
    (advanceStep s).success = s.success := by
  unfold advanceStep
  split
  · exact handleNextField_success_eq s
  · rfl

theorem handleFieldClick_success_eq (f : FormField) (s : SessionState) :
    (handleFieldClick f s).success = s.success := by
  unfold handleFieldClick
  split <;> rfl

theorem step_success_eq (fetchDoc : String → Option SignedDocumentRec)
    (a : Action) (s : SessionState) (hne : ∀ p, a ≠ Action.insertEvent p) :
    (step fetchDoc a s).success = s.success := by
  cases a with
  | resize w => rfl
  | loadOk tpl url => rfl
  | loadFailed => rfl
  | fieldClick f => exact handleFieldClick_success_eq f s
  | signatureSave d => rfl
  | inputChange f v => rfl
  | cancelSignature => rfl
  | nextFieldClick => exact advanceStep_success_eq s
  | save r => exact handleSave_success_eq fetchDoc r s
  | insertEvent p => exact absurd rfl (hne p)

/-- C10: a (non-mobile) successful `handleSave` stores the fetched signed
document locally but never changes the success flag; among all the
component's state transitions, the only one that can turn the success flag
on is the realtime subscription handler, and only on an INSERT event whose
`template_id` matches the session - so success is reached only through the
subscription's delivery of the creation event. -/
theorem success_set_only_by_subscription (fetchDoc : String → Option SignedDocumentRec) :
    (∀ (r : Option String) (s : SessionState),
      (handleSave fetchDoc r s).1.success = s.success) ∧
    (∀ (s : SessionState) (tpl : Template) (tid docId : String) (doc : SignedDocumentRec),
      s.isMobile = false → s.template = some tpl → s.templateId = some tid →
      (validateForm tpl.fields s.formValues).ok = true →
      fetchDoc docId = some doc →
      (handleSave fetchDoc (some docId) s).1.signedDocument = some doc) ∧
    (∀ (a : Action) (s : SessionState),
      s.success = false → (step fetchDoc a s).success = true →
      ∃ p, a = Action.insertEvent p ∧ s.templateId = some p.template_id) := by
  refine ⟨handleSave_success_eq fetchDoc, ?_, ?_⟩
  · intro s tpl tid docId doc hmob htpl htid hok hfetch
    unfold handleSave
    rw [htpl, htid]
    dsimp only
    rw [if_pos hok, hfetch]
    dsimp only
    rw [if_neg (by simp [hmob])]
  · intro a s hfalse htrue
    by_cases hins : ∃ p, a = Action.insertEvent p
    · obtain ⟨p, rfl⟩ := hins
      refine ⟨p, rfl, ?_⟩
      by_contra hne
      have hstep : step fetchDoc (Action.insertEvent p) s = s := by
        show handleInsertEvent fetchDoc p s = s
        unfold handleInsertEvent
        rw [if_neg hne]
      rw [hstep, hfalse] at htrue
      exact Bool.false_ne_true htrue
    · exfalso
      have hne : ∀ p, a ≠ Action.insertEvent p := by
        intro p hp
        exact hins ⟨p, hp⟩
      rw [step_success_eq fetchDoc a s hne, hfalse] at htrue
      exact Bool.false_ne_true htrue

theorem success_set_only_by_subscription_witness :
    st0.templateId = some ((⟨"d1", "t1"⟩ : InsertPayload)).template_id := by
  obtain ⟨p, hp, hmatch⟩ := (success_set_only_by_subscription (fun _ => some doc0)).2.2
    (Action.insertEvent ⟨"d1", "t1"⟩) st0 rfl rfl
  cases hp
  exact hmatch

end SignDoc
